import Mathlib

/-!
Verification development for the go-ubasic repository: a shallow embedding of
the tokenizer (lex), the recursive-descent parser (parse) and the tree-walking
interpreter (interp), translated from the Go sources, together with theorems
settling the frozen claims about the program.

Conventions of the embedding:
* Go `int64` values are modelled as `Int` with an explicit wrap `wrap64`
  applied wherever Go arithmetic can overflow.
* Go maps are modelled as association lists (`alSet` overwrites, `alGet?`
  looks up); Go's "missing key reads as zero value" is `alGetD _ 0 _`.
* Functions of the source that contain loops or non-structural recursion take
  an explicit fuel parameter (first argument); exhausting the fuel returns a
  distinguished out-of-fuel result.  A result of out-of-fuel *for every fuel*
  models divergence of the source program.
* Go `panic`/`recover` error handling is modelled by returning the error
  together with the interpreter state at the moment of the panic, so that
  mutations committed before the panic are preserved, exactly as the Go
  pointer-receiver methods preserve them.
-/

/-- Wrap an unbounded integer into the two's-complement `int64` range,
the semantics of Go 64-bit integer overflow. -/
def wrap64 (x : Int) : Int :=
  (x + 9223372036854775808) % 18446744073709551616 - 9223372036854775808

/-- The unsigned 64-bit pattern of an `int64` value, for bitwise operators. -/
def toU64 (x : Int) : Nat := (x % 18446744073709551616).toNat

/-- Go `&` on int64: bitwise and of the two's-complement patterns. -/
def and64 (l r : Int) : Int := wrap64 (Int.ofNat (Nat.land (toU64 l) (toU64 r)))

/-- Go `|` on int64: bitwise or of the two's-complement patterns. -/
def or64 (l r : Int) : Int := wrap64 (Int.ofNat (Nat.lor (toU64 l) (toU64 r)))

/-- Go `^` (binary) on int64: bitwise xor of the two's-complement patterns. -/
def xor64 (l r : Int) : Int := wrap64 (Int.ofNat (Nat.xor (toU64 l) (toU64 r)))

/-- interp.go `truth`: comparisons yield 1 or 0. -/
def truth (p : Prop) [Decidable p] : Int := if p then 1 else 0

/-- Association-list update: overwrite the first binding of `k`, or append.
Models assignment into a Go map. -/
def alSet {κ α : Type} [DecidableEq κ] (k : κ) (v : α) :
    List (κ × α) → List (κ × α)
  | [] => [(k, v)]
  | (k', v') :: rest =>
      if k' = k then (k, v) :: rest else (k', v') :: alSet k v rest

/-- Association-list lookup.  Models a comma-ok Go map read. -/
def alGet? {κ α : Type} [DecidableEq κ] (k : κ) :
    List (κ × α) → Option α
  | [] => none
  | (k', v') :: rest => if k' = k then some v' else alGet? k rest

/-- Association-list lookup with default.  Models a plain Go map read,
where a missing key yields the zero value. -/
def alGetD {κ α : Type} [DecidableEq κ] (k : κ) (d : α) (l : List (κ × α)) : α :=
  (alGet? k l).getD d

/-- The token kinds of the lex package.  The constant declarations themselves
are in a lex source file not present under src/; the kind names are taken from
their uses in lex.go, parse.go and interp.go.  `ZERO` stands for the zero
value of the Go `lex.Token` type (its numeric identity is unknown); it is
produced only for a lone `!` and for zero-initialized token fields, and no
claim depends on which named constant the zero value coincides with. -/
inductive Tok where
  | ZERO
  | LET | PRINT | IF | THEN | ELSE | FOR | TO | NEXT | GOTO | GOSUB
  | RETURN | CALL | REM | PEEK | POKE | END
  | NUMBER | STRING | VARIABLE
  | CR | COMMA | SEMICOLON
  | LT | GT | LEQ | GEQ | NEQ | EQ
  | LPAREN | RPAREN | XOR | AND | OR | PLUS | MINUS | ASTR | SLASH | MOD
  | HASH | ERROR | EOF
  deriving DecidableEq, Repr

/-- text/scanner.Position: source name, byte offset, line, column. -/
structure Pos where
  name : String
  offset : Nat
  line : Nat
  column : Nat
  deriving DecidableEq, Repr

/-- ast.Token: a positioned token with its literal text. -/
structure Token where
  pos : Pos
  type : Tok
  text : String
  deriving DecidableEq, Repr

/-- The zero value of ast.Token (Go zero-initialized struct). -/
def Token.zeroTok : Token := ⟨⟨"", 0, 0, 0⟩, .ZERO, ""⟩

/-- lex.Tokenizer state: the fixed source, the one-rune lookahead `ch`
(`none` models the eof sentinel), reading offsets and line/column tracking.
Offsets count characters; all claim inputs are ASCII, where this coincides
with Go's byte offsets. -/
structure LexState where
  name : String
  src : List Char
  scanComments : Bool
  ch : Option Char
  offset : Nat
  rdOffset : Nat
  line : Nat
  lastLine : Nat
  column : Nat
  lastColumn : Nat
  deriving DecidableEq, Repr

/-- Tokenizer.next: advance the one-rune lookahead.  Mirrors lex.go `next`,
including that `column` is reset at a newline but never otherwise advanced. -/
def lnext (t : LexState) : LexState :=
  if t.rdOffset < t.src.length then
    { t with lastLine := t.line, lastColumn := t.column,
             offset := t.rdOffset,
             line := if t.ch = some '\n' then t.line + 1 else t.line,
             column := if t.ch = some '\n' then 1 else t.column,
             ch := some (t.src.getD t.rdOffset ' '),
             rdOffset := t.rdOffset + 1 }
  else
    { t with lastLine := t.line, lastColumn := t.column,
             offset := t.src.length,
             line := if t.ch = some '\n' then t.line + 1 else t.line,
             column := if t.ch = some '\n' then 1 else t.column,
             ch := none }

/-- Tokenizer.Init followed by the initial `next` call. -/
def lexInit (scanComments : Bool) (name : String) (src : String) : LexState :=
  lnext { name := name, src := src.toList, scanComments := scanComments,
          ch := none, offset := 0, rdOffset := 0,
          line := 1, lastLine := 0, column := 1, lastColumn := 0 }

/-- The literal text between a recorded start offset and the current offset:
`string(t.src[offs:t.offset])`. -/
def lexSlice (t : LexState) (offs : Nat) : String :=
  String.mk ((t.src.drop offs).take (t.offset - offs))

/-- lex.go `isLetter`: underscore or a letter (claim inputs are ASCII). -/
def goIsLetter (c : Char) : Bool := c = '_' ∨ c.isAlpha

/-- lex.go `isDigit`. -/
def goIsDigit (c : Char) : Bool := '0' ≤ c ∧ c ≤ '9'

/-- Tokenizer.skipws: skip blanks and tabs. -/
def skipws : Nat → LexState → Option LexState
  | n, t =>
    if t.ch = some ' ' ∨ t.ch = some '\t' then
      match n with
      | 0 => none
      | m + 1 => skipws m (lnext t)
    else some t

/-- The loop of Tokenizer.ident: consume letters and digits. -/
def lexIdentLoop : Nat → LexState → Option LexState
  | n, t =>
    match t.ch with
    | some c =>
      if goIsLetter c ∨ goIsDigit c then
        match n with
        | 0 => none
        | m + 1 => lexIdentLoop m (lnext t)
      else some t
    | none => some t

/-- The loop of Tokenizer.number: consume digits. -/
def lexNumberLoop : Nat → LexState → Option LexState
  | n, t =>
    match t.ch with
    | some c =>
      if goIsDigit c then
        match n with
        | 0 => none
        | m + 1 => lexNumberLoop m (lnext t)
      else some t
    | none => some t

/-- The loop of Tokenizer.string after the opening quote.  The Bool is true
when a closing quote was found, false on eof or a line terminator
("unterminated string"). -/
def lexStringLoop : Nat → LexState → Option (LexState × Bool)
  | 0, _ => none
  | n + 1, t =>
    let t := lnext t
    match t.ch with
    | none => some (t, false)
    | some c =>
      if c = '\r' ∨ c = '\n' then some (t, false)
      else if c = '"' then some (lnext t, true)
      else lexStringLoop n t

/-- The loop of Tokenizer.comment: consume through the newline.  The Go loop
never tests for eof, so a comment that reaches end of input spins forever;
here that divergence shows up as fuel exhaustion for every fuel. -/
def lexCommentLoop : Nat → LexState → Option LexState
  | 0, _ => none
  | n + 1, t =>
    if t.ch = some '\n' then some (lnext t)
    else lexCommentLoop n (lnext t)

/-- ASCII lowering of one character (strings.ToLower restricted to the
ASCII identifiers this program tokenizes). -/
def asciiLower (c : Char) : Char :=
  if 'A' ≤ c ∧ c ≤ 'Z' then Char.ofNat (c.toNat + 32) else c

/-- strings.ToLower over the token text (kernel-computable form). -/
def strToLower (s : String) : String := String.mk (s.toList.map asciiLower)

/-- lex.go `lookupIdent`: case-insensitive keyword table. -/
def lookupIdent (ident : String) : Tok :=
  match strToLower ident with
  | "let" => .LET
  | "print" => .PRINT
  | "if" => .IF
  | "then" => .THEN
  | "else" => .ELSE
  | "for" => .FOR
  | "to" => .TO
  | "next" => .NEXT
  | "goto" => .GOTO
  | "gosub" => .GOSUB
  | "return" => .RETURN
  | "call" => .CALL
  | "rem" => .REM
  | "peek" => .PEEK
  | "poke" => .POKE
  | "end" => .END
  | _ => .VARIABLE

/-- Tokenizer.Next: produce one token.  Mirrors lex.go `Next`, including the
`goto scan` retry after a skipped comment and the two-character operator
fusions.  A lone `!` leaves the zero-valued token kind, as in the source. -/
def lexNext : Nat → LexState → Option (LexState × Pos × Tok × String)
  | 0, _ => none
  | n + 1, t0 =>
    match skipws n t0 with
    | none => none
    | some t =>
      let pos : Pos := ⟨t.name, t.offset, t.lastLine, t.lastColumn⟩
      match t.ch with
      | none => some (t, pos, .EOF, "")
      | some c =>
        if goIsLetter c then
          match lexIdentLoop n t with
          | none => none
          | some t2 =>
            let lit := lexSlice t2 t.offset
            let ty := lookupIdent lit
            if ty = .REM then
              match lexCommentLoop n t2 with
              | none => none
              | some t3 =>
                if t.scanComments then
                  some (t3, pos, .REM, lit ++ lexSlice t3 t2.offset)
                else
                  lexNext n t3
            else some (t2, pos, ty, lit)
        else if goIsDigit c then
          match lexNumberLoop n t with
          | none => none
          | some t2 => some (t2, pos, .NUMBER, lexSlice t2 t.offset)
        else if c = '"' then
          match lexStringLoop n t with
          | none => none
          | some (t2, true) => some (t2, pos, .STRING, lexSlice t2 t.offset)
          | some (t2, false) => some (t2, pos, .ERROR, "unterminated string")
        else
          let t2 := lnext t
          let lit := String.singleton c
          if c = '\n' ∨ c = '\r' then some (t2, pos, .CR, lit)
          else if c = ',' then some (t2, pos, .COMMA, lit)
          else if c = ';' then some (t2, pos, .SEMICOLON, lit)
          else if c = '<' then
            if t2.ch = some '=' then some (lnext t2, pos, .LEQ, "<=")
            else some (t2, pos, .LT, lit)
          else if c = '>' then
            if t2.ch = some '=' then some (lnext t2, pos, .GEQ, ">=")
            else some (t2, pos, .GT, lit)
          else if c = '!' then
            if t2.ch = some '=' then some (lnext t2, pos, .NEQ, "!=")
            else some (t2, pos, .ZERO, lit)
          else if c = '=' then some (t2, pos, .EQ, lit)
          else if c = '(' then some (t2, pos, .LPAREN, lit)
          else if c = ')' then some (t2, pos, .RPAREN, lit)
          else if c = '^' then some (t2, pos, .XOR, lit)
          else if c = '&' then some (t2, pos, .AND, lit)
          else if c = '|' then some (t2, pos, .OR, lit)
          else if c = '+' then some (t2, pos, .PLUS, lit)
          else if c = '-' then some (t2, pos, .MINUS, lit)
          else if c = '*' then some (t2, pos, .ASTR, lit)
          else if c = '/' then some (t2, pos, .SLASH, lit)
          else if c = '%' then some (t2, pos, .MOD, lit)
          else if c = '#' then some (t2, pos, .HASH, lit)
          else some (t2, pos, .ERROR, "unknown character " ++ lit)

/-! ## Literal conversion (strconv, as invoked by the parser) -/

/-- Accumulate the value of a digit run in the given base; `none` when a
character is not a digit of the base. -/
def digitsVal (base : Nat) : List Char → Nat → Option Nat
  | [], acc => some acc
  | c :: rest, acc =>
      if goIsDigit c ∧ c.toNat - 48 < base then
        digitsVal base rest (acc * base + (c.toNat - 48))
      else none

/-- strconv.ParseInt(text, 0, 64) restricted to the shapes the tokenizer can
produce (a nonempty run of decimal digits): base 0 means a leading `0` makes
the rest octal; the value must fit in a positive int64. -/
def parseIntText (s : String) : Option Int :=
  match s.toList with
  | [] => none
  | ['0'] => some 0
  | '0' :: rest =>
      match digitsVal 8 rest 0 with
      | some n => if n ≤ 9223372036854775807 then some (Int.ofNat n) else none
      | none => none
  | l =>
      match digitsVal 10 l 0 with
      | some n => if n ≤ 9223372036854775807 then some (Int.ofNat n) else none
      | none => none

/-- strconv.Unquote on a double-quoted token, restricted to the common escape
sequences; exotic escapes (hex, octal, unicode) are modelled as failure and
appear in no claim input.  The tokenizer guarantees the text starts and ends
with a quote and contains no line terminator. -/
def unquoteLoop : List Char → Option (List Char)
  | [] => none
  | ['"'] => some []
  | '"' :: _ => none
  | '\\' :: e :: rest =>
      (unquoteLoop rest).bind fun tail =>
        if e = 'n' then some ('\n' :: tail)
        else if e = 't' then some ('\t' :: tail)
        else if e = 'r' then some ('\r' :: tail)
        else if e = '\\' then some ('\\' :: tail)
        else if e = '"' then some ('"' :: tail)
        else none
  | c :: rest => (unquoteLoop rest).map fun tail => c :: tail

/-- strconv.Unquote for the string tokens this program produces. -/
def unquote (s : String) : Option String :=
  match s.toList with
  | '"' :: rest => (unquoteLoop rest).map String.mk
  | _ => none

/-! ## The AST (package ast), with BaseStmt labels flattened into each
statement constructor -/

/-- ast.Label: a positioned line number. -/
structure Label where
  pos : Pos
  value : Int
  deriving DecidableEq, Repr

/-- ast.Expr: Number, Variable, String, Punct, BinaryExpr, ParenExpr. -/
inductive Expr where
  | num (pos : Pos) (value : Int)
  | var (pos : Pos) (name : String)
  | str (pos : Pos) (value : String)
  | punct (pos : Pos) (type : Tok)
  | binary (op : Token) (x y : Expr)
  | paren (lparen : Token) (x : Expr) (rparen : Token)
  deriving DecidableEq, Repr

mutual
/-- ast.Stmt: each constructor carries its Label and source tokens as in
ast.go; `Variable` fields are flattened to (pos, name). -/
inductive Stmt where
  | endStmt (label : Label) (endTok : Token)
  | forStmt (label : Label) (forTok : Token) (varPos : Pos) (varName : String)
      (start : Expr) (toTok : Token) (stop : Expr)
  | gotoStmt (label : Label) (gotoTok : Token) (locPos : Pos) (locValue : Int)
  | gosubStmt (label : Label) (gosubTok : Token) (locPos : Pos) (locValue : Int)
  | ifStmt (label : Label) (ifTok : Token) (cond : Expr) (thenTok : Token)
      (body : Stmt) (els : ElseOpt)
  | letStmt (label : Label) (letTok : Option Token) (varPos : Pos)
      (varName : String) (value : Expr)
  | nextStmt (label : Label) (nextTok : Token) (varPos : Pos) (varName : String)
  | peekStmt (label : Label) (peekTok : Token) (addr : Expr) (varPos : Pos)
      (varName : String)
  | pokeStmt (label : Label) (pokeTok : Token) (addr : Expr) (value : Expr)
  | printStmt (label : Label) (printTok : Token) (args : List Expr)
  | returnStmt (label : Label) (retTok : Token)

/-- IfStmt.Else: an optional ElseStmt (its own Label, token and body). -/
inductive ElseOpt where
  | none
  | some (label : Label) (elseTok : Token) (body : Stmt)
end

/-- Stmt.Line(): the statement's label value. -/
def Stmt.line : Stmt → Int
  | .endStmt lbl _ => lbl.value
  | .forStmt lbl _ _ _ _ _ _ => lbl.value
  | .gotoStmt lbl _ _ _ => lbl.value
  | .gosubStmt lbl _ _ _ => lbl.value
  | .ifStmt lbl _ _ _ _ _ => lbl.value
  | .letStmt lbl _ _ _ _ => lbl.value
  | .nextStmt lbl _ _ _ => lbl.value
  | .peekStmt lbl _ _ _ _ => lbl.value
  | .pokeStmt lbl _ _ _ => lbl.value
  | .printStmt lbl _ _ => lbl.value
  | .returnStmt lbl _ => lbl.value

/-! ## The parser (package parse) -/

/-- The full token stream of a source text, up to and including the first
EOF token.  The Go parser pulls tokens from the tokenizer lazily, but the
tokenizer's output never depends on parser state, so parsing over the
pre-computed stream is observationally equivalent; the tokenizer's EOF token
is repeatable, and the parser never consumes it, so the terminal EOF stays
at the head of the remaining stream. -/
def tokenize : Nat → LexState → Option (List Token)
  | 0, _ => none
  | n + 1, t =>
    match lexNext n t with
    | Option.none => none
    | Option.some (t2, pos, ty, txt) =>
      if ty = .EOF then some [⟨pos, ty, txt⟩]
      else (tokenize n t2).map fun rest => ⟨pos, ty, txt⟩ :: rest

/-- Parser state: the remaining token stream, the pushback buffer `look`,
the current token, and the statement-scoped `label` and `let` fields. -/
structure PState where
  toks : List Token
  look : List Token
  tok : Token
  label : Label
  letTok : Option Token
  deriving DecidableEq, Repr

/-- Parser errors.  `errAt` is a panic raised by Parser.errf (the message is
kept structured rather than formatted); `eofSignal` is the io.EOF returned by
Parser.Line at end of input; `oof` is fuel exhaustion, which for every fuel
means the source diverges.  errf's resynchronization consumes tokens before
panicking; since the thrown-away parser state is not consulted again by any
claim, synch is not modelled. -/
inductive PMsg where
  | expected (want got : Tok)
  | expectedNewline (got : Tok)
  | invalidNumber (text : String)
  | invalidString (text : String)
  | unsupportedStatement (text : String)
  | unknownPrintType (text : String)
  | lexError (text : String)
  deriving DecidableEq, Repr

inductive PErr where
  | oof
  | eofSignal
  | errAt (pos : Pos) (msg : PMsg)
  deriving DecidableEq, Repr

/-- Parser.next: take from the pushback buffer, else pull the next token
from the stream, skipping REM tokens (none are present when comments are
configured off).  The stream always retains its terminal EOF token, which
the grammar never consumes, so exhaustion is unreachable on tokenized
input and is mapped to fuel exhaustion. -/
def pnext : Nat → PState → Except PErr PState
  | 0, _ => .error .oof
  | n + 1, st =>
    match st.look with
    | t :: rest => .ok { st with tok := t, look := rest }
    | [] =>
      match st.toks with
      | [] => .error .oof
      | t :: rest =>
        if t.type = .REM then pnext n { st with toks := rest }
        else if t.type = .EOF then .ok { st with tok := t }
        else .ok { st with toks := rest, tok := t }

/-- Parser.accept: require the current token kind, return it and advance. -/
def paccept (n : Nat) (ty : Tok) (st : PState) : Except PErr (Token × PState) :=
  if st.tok.type = ty then do
    let xtok := st.tok
    let st ← pnext n st
    .ok (xtok, st)
  else .error (.errAt st.tok.pos (.expected ty st.tok.type))

/-- Parser.acceptNumber.  As in the source, the error for an unconvertible
number reports the token *after* the number (p.tok has already advanced). -/
def pacceptNumber (n : Nat) (st : PState) : Except PErr ((Pos × Int) × PState) := do
  let (t, st) ← paccept n .NUMBER st
  match parseIntText t.text with
  | Option.none => .error (.errAt st.tok.pos (.invalidNumber st.tok.text))
  | Option.some v => .ok ((t.pos, v), st)

/-- Parser.acceptVariable. -/
def pacceptVariable (n : Nat) (st : PState) : Except PErr ((Pos × String) × PState) := do
  let (t, st) ← paccept n .VARIABLE st
  .ok ((t.pos, t.text), st)

/-- Parser.acceptCR: a newline, or end of input (accepted silently). -/
def pacceptCR (n : Nat) (st : PState) : Except PErr PState :=
  if st.tok.type = .CR then do
    let (_, st) ← paccept n .CR st
    .ok st
  else if st.tok.type = .EOF then .ok st
  else .error (.errAt st.tok.pos (.expectedNewline st.tok.type))

/-- Parser.skipcr: skip leading newlines. -/
def pskipcr : Nat → PState → Except PErr PState
  | 0, st => if st.tok.type = .CR then .error .oof else .ok st
  | n + 1, st =>
    if st.tok.type = .CR then do
      let st2 ← pnext n st
      pskipcr n st2
    else .ok st

/-- Selector for the mutually recursive expression parsers of parse.go,
packed into one fueled function: expr, term, factor, relation and their
operator loops (the loop constructors carry the accumulated left operand). -/
inductive EKind where
  | expr
  | exprLoop (acc : Expr)
  | term
  | termLoop (acc : Expr)
  | factor
  | rel
  | relLoop (acc : Expr)

/-- The expression grammar of parse.go: Parser.expr / term / factor /
relation.  The factor case for LPAREN mirrors the source exactly: the `(`
token is recorded but never consumed before recursing into expr, so that
path re-enters factor on the same token and never terminates. -/
def pexprF : Nat → EKind → PState → Except PErr (Expr × PState)
  | 0, _, _ => .error .oof
  | n + 1, k, st =>
    match k with
    | .expr => do
        let (t1, st) ← pexprF n .term st
        pexprF n (.exprLoop t1) st
    | .exprLoop acc =>
        match st.tok.type with
        | .PLUS | .MINUS | .AND | .OR => do
            let op := st.tok
            let st ← pnext n st
            let (t2, st) ← pexprF n .term st
            pexprF n (.exprLoop (.binary op acc t2)) st
        | _ => .ok (acc, st)
    | .term => do
        let (f1, st) ← pexprF n .factor st
        pexprF n (.termLoop f1) st
    | .termLoop acc =>
        match st.tok.type with
        | .ASTR | .SLASH | .MOD => do
            let op := st.tok
            let st ← pnext n st
            let (f2, st) ← pexprF n .factor st
            pexprF n (.termLoop (.binary op acc f2)) st
        | _ => .ok (acc, st)
    | .factor =>
        match st.tok.type with
        | .NUMBER => do
            let (nv, st) ← pacceptNumber n st
            .ok (.num nv.1 nv.2, st)
        | .LPAREN => do
            let l := st.tok
            let (x, st) ← pexprF n .expr st
            let (r, st) ← paccept n .RPAREN st
            .ok (.paren l x r, st)
        | _ => do
            let (v, st) ← pacceptVariable n st
            .ok (.var v.1 v.2, st)
    | .rel => do
        let (r1, st) ← pexprF n .expr st
        pexprF n (.relLoop r1) st
    | .relLoop acc =>
        match st.tok.type with
        | .LT | .GT | .LEQ | .GEQ | .NEQ | .EQ => do
            let op := st.tok
            let st ← pnext n st
            let (r2, st) ← pexprF n .expr st
            pexprF n (.relLoop (.binary op acc r2)) st
        | _ => .ok (acc, st)

/-- Parser.print: collect PRINT arguments until a line terminator.  String
positions are recorded before the token advances, as in the source. -/
def pprintLoop : Nat → PState → List Expr → Except PErr (List Expr × PState)
  | 0, _, _ => .error .oof
  | n + 1, st, acc =>
    match st.tok.type with
    | .STRING =>
      match unquote st.tok.text with
      | Option.none => .error (.errAt st.tok.pos (.invalidString st.tok.text))
      | Option.some lit => do
          let pos := st.tok.pos
          let st ← pnext n st
          pprintLoop n st (.str pos lit :: acc)
    | .COMMA | .SEMICOLON => do
        let pos := st.tok.pos
        let ty := st.tok.type
        let st ← pnext n st
        pprintLoop n st (.punct pos ty :: acc)
    | .VARIABLE => do
        let (e, st) ← pexprF n .expr st
        pprintLoop n st (e :: acc)
    | .NUMBER => do
        let (e, st) ← pexprF n .expr st
        pprintLoop n st (e :: acc)
    | .CR => .ok (acc.reverse, st)
    | .EOF => .ok (acc.reverse, st)
    | _ => .error (.errAt st.tok.pos (.unknownPrintType st.tok.text))

/-- Parser.print. -/
def pprint (n : Nat) (st : PState) : Except PErr (Stmt × PState) := do
  let lbl := st.label
  let (ptok, st) ← paccept n .PRINT st
  let (args, st) ← pprintLoop n st []
  .ok (.printStmt lbl ptok args, st)

/-- Parser.goto_. -/
def pgoto (n : Nat) (st : PState) : Except PErr (Stmt × PState) := do
  let lbl := st.label
  let (gtok, st) ← paccept n .GOTO st
  let (loc, st) ← pacceptNumber n st
  .ok (.gotoStmt lbl gtok loc.1 loc.2, st)

/-- Parser.gosub. -/
def pgosub (n : Nat) (st : PState) : Except PErr (Stmt × PState) := do
  let lbl := st.label
  let (gtok, st) ← paccept n .GOSUB st
  let (loc, st) ← pacceptNumber n st
  .ok (.gosubStmt lbl gtok loc.1 loc.2, st)

/-- Parser.for_. -/
def pfor (n : Nat) (st : PState) : Except PErr (Stmt × PState) := do
  let lbl := st.label
  let (ftok, st) ← paccept n .FOR st
  let (v, st) ← pacceptVariable n st
  let (_, st) ← paccept n .EQ st
  let (startE, st) ← pexprF n .expr st
  let (toTok, st) ← paccept n .TO st
  let (stopE, st) ← pexprF n .expr st
  .ok (.forStmt lbl ftok v.1 v.2 startE toTok stopE, st)

/-- Parser.peek. -/
def ppeek (n : Nat) (st : PState) : Except PErr (Stmt × PState) := do
  let lbl := st.label
  let (ptok, st) ← paccept n .PEEK st
  let (addr, st) ← pexprF n .expr st
  let (_, st) ← paccept n .COMMA st
  let (v, st) ← pacceptVariable n st
  .ok (.peekStmt lbl ptok addr v.1 v.2, st)

/-- Parser.poke. -/
def ppoke (n : Nat) (st : PState) : Except PErr (Stmt × PState) := do
  let lbl := st.label
  let (ptok, st) ← paccept n .POKE st
  let (addr, st) ← pexprF n .expr st
  let (_, st) ← paccept n .COMMA st
  let (value, st) ← pexprF n .expr st
  .ok (.pokeStmt lbl ptok addr value, st)

/-- Parser.next_. -/
def pnextStmt (n : Nat) (st : PState) : Except PErr (Stmt × PState) := do
  let lbl := st.label
  let (ntok, st) ← paccept n .NEXT st
  let (v, st) ← pacceptVariable n st
  .ok (.nextStmt lbl ntok v.1 v.2, st)

/-- Parser.end. -/
def pend (n : Nat) (st : PState) : Except PErr (Stmt × PState) := do
  let lbl := st.label
  let (etok, st) ← paccept n .END st
  .ok (.endStmt lbl etok, st)

/-- Parser.return_. -/
def preturn (n : Nat) (st : PState) : Except PErr (Stmt × PState) := do
  let lbl := st.label
  let (rtok, st) ← paccept n .RETURN st
  .ok (.returnStmt lbl rtok, st)

/-- Parser.let_: reads p.let (set by the LET dispatch, zero for a bare
assignment). -/
def plet (n : Nat) (st : PState) : Except PErr (Stmt × PState) := do
  let lbl := st.label
  let lt := st.letTok
  let (v, st) ← pacceptVariable n st
  let (_, st) ← paccept n .EQ st
  let (value, st) ← pexprF n .expr st
  .ok (.letStmt lbl lt v.1 v.2 value, st)

/-- Selector for the mutually recursive pair Parser.stmt / Parser.if_. -/
inductive SKind where
  | stmt
  | ifS

/-- Parser.stmt and Parser.if_, packed into one fueled function.  `stmt`
skips newlines, reads the Label, dispatches on the keyword and (except after
an IF) requires a line terminator.  `ifS` parses the IF head, a newline, the
body statement, then unconditionally reads the next line's number for the
dangling-else lookahead, pushing both consumed tokens back when no ELSE
follows. -/
def pstmtF : Nat → SKind → PState → Except PErr (Stmt × PState)
  | 0, _, _ => .error .oof
  | n + 1, .stmt, st => do
      let st ← pskipcr n st
      let (lblNum, st) ← pacceptNumber n st
      let st := { st with label := ⟨lblNum.1, lblNum.2⟩, letTok := Option.none }
      match st.tok.type with
      | .PRINT => do
          let (s, st) ← pprint n st
          let st ← pacceptCR n st
          .ok (s, st)
      | .IF => pstmtF n .ifS st
      | .GOTO => do
          let (s, st) ← pgoto n st
          let st ← pacceptCR n st
          .ok (s, st)
      | .GOSUB => do
          let (s, st) ← pgosub n st
          let st ← pacceptCR n st
          .ok (s, st)
      | .RETURN => do
          let (s, st) ← preturn n st
          let st ← pacceptCR n st
          .ok (s, st)
      | .FOR => do
          let (s, st) ← pfor n st
          let st ← pacceptCR n st
          .ok (s, st)
      | .PEEK => do
          let (s, st) ← ppeek n st
          let st ← pacceptCR n st
          .ok (s, st)
      | .POKE => do
          let (s, st) ← ppoke n st
          let st ← pacceptCR n st
          .ok (s, st)
      | .NEXT => do
          let (s, st) ← pnextStmt n st
          let st ← pacceptCR n st
          .ok (s, st)
      | .END => do
          let (s, st) ← pend n st
          let st ← pacceptCR n st
          .ok (s, st)
      | .LET => do
          let (lt, st) ← paccept n .LET st
          let (s, st) ← plet n { st with letTok := Option.some lt }
          let st ← pacceptCR n st
          .ok (s, st)
      | .VARIABLE => do
          let (s, st) ← plet n st
          let st ← pacceptCR n st
          .ok (s, st)
      | _ => .error (.errAt st.tok.pos (.unsupportedStatement st.tok.text))
  | n + 1, .ifS, st => do
      let lbl := st.label
      let (ifTok, st) ← paccept n .IF st
      let (cond, st) ← pexprF n .rel st
      let (thenTok, st) ← paccept n .THEN st
      let st ← pacceptCR n st
      let (body, st) ← pstmtF n .stmt st
      let tokSaved := st.tok
      let (num, st) ← pacceptNumber n st
      if st.tok.type = .ELSE then do
        let (elseTok, st) ← paccept n .ELSE st
        let st ← pacceptCR n st
        let (ebody, st) ← pstmtF n .stmt st
        .ok (.ifStmt lbl ifTok cond thenTok body (.some ⟨num.1, num.2⟩ elseTok ebody), st)
      else
        .ok (.ifStmt lbl ifTok cond thenTok body .none,
             { st with look := [st.tok], tok := tokSaved })

/-- Parser.Line: one statement per call, io.EOF at end of input, or an
error.  An ERROR token from the tokenizer is promoted to a parse error. -/
def pLine (n : Nat) (st : PState) : Except PErr (Stmt × PState) :=
  match st.tok.type with
  | .EOF => .error .eofSignal
  | .ERROR => .error (.errAt st.tok.pos (.lexError st.tok.text))
  | _ => pstmtF n .stmt st

/-- parse.NewParser over a fresh tokenizer (Config zero value: comments
skipped), as built by interp.Run: the parser performs one initial next. -/
def mkParser (n : Nat) (name src : String) : Except PErr PState :=
  match tokenize n (lexInit false name src) with
  | Option.none => .error .oof
  | Option.some ts =>
    pnext n { toks := ts, look := [], tok := Token.zeroTok,
              label := ⟨⟨"", 0, 0, 0⟩, 0⟩, letTok := Option.none }

/-- The parse-everything loop at the top of interp.Run: collect statements
until io.EOF, stopping at the first error. -/
def parseAllLoop : Nat → PState → List Stmt → Except PErr (List Stmt)
  | 0, _, _ => .error .oof
  | n + 1, st, acc =>
    match pLine n st with
    | .error .eofSignal => .ok acc.reverse
    | .error e => .error e
    | .ok (s, st') => parseAllLoop n st' (s :: acc)

/-! ## The interpreter (package interp) -/

/-- Interpreter evaluation errors.  The descriptive errors correspond to the
Interpreter.errf calls; `divideByZero` models the Go runtime panic raised by
`/` or `%` with a zero divisor, which Eval's recover hands back as the host's
native failure object, not an error built by the interpreter. -/
inductive IErr where
  | nonMatchingNext (label : Label)
  | gotoNotExist (label : Label) (loc : Int)
  | gosubNotExist (label : Label) (loc : Int)
  | nonMatchingReturn (label : Label)
  | unknownVariable (pos : Pos) (name : String)
  | unknownBinaryOp (pos : Pos) (type : Tok)
  | unknownPrintArg (label : Label)
  | divideByZero
  deriving DecidableEq, Repr

/-- interp.ForStack: one FOR frame. -/
structure ForFrame where
  block : Nat
  var : String
  toV : Int
  deriving DecidableEq, Repr

/-- interp.Interpreter together with the reference Mach (Stdio): Go's
append-at-end/index-from-end slice stacks Subs and Fors are modelled as lists
whose head is the top of the stack.  `out` records each Fprint write to the
Mach in order; `mem` is the Stdio Peek/Poke address map. -/
structure IState where
  halt : Bool
  pc : Nat
  vars : List (String × Int)
  subs : List Nat
  fors : List ForFrame
  locs : List (Int × Nat)
  lines : List Stmt
  out : List String
  mem : List (Int × Int)

/-- A fresh interpreter after Reset, with no program loaded. -/
def emptyIState : IState :=
  { halt := false, pc := 0, vars := [], subs := [], fors := [],
    locs := [], lines := [], out := [], mem := [] }

/-- Interpreter.expr for a BinaryExpr's operator, given the two evaluated
operands.  Division and modulo by zero raise the Go runtime panic. -/
def binOp (op : Token) (l r : Int) : Except IErr Int :=
  match op.type with
  | .PLUS => .ok (wrap64 (l + r))
  | .MINUS => .ok (wrap64 (l - r))
  | .ASTR => .ok (wrap64 (l * r))
  | .SLASH => if r = 0 then .error .divideByZero else .ok (wrap64 (l.tdiv r))
  | .MOD => if r = 0 then .error .divideByZero else .ok (l.tmod r)
  | .AND => .ok (and64 l r)
  | .OR => .ok (or64 l r)
  | .XOR => .ok (xor64 l r)
  | .LT => .ok (truth (l < r))
  | .GT => .ok (truth (l > r))
  | .LEQ => .ok (truth (l ≤ r))
  | .GEQ => .ok (truth (l ≥ r))
  | .NEQ => .ok (truth (l ≠ r))
  | .EQ => .ok (truth (l = r))
  | t => .error (.unknownBinaryOp op.pos t)

/-- Interpreter.expr.  A String or Punct node reaching expr falls through the
Go type switch with no matching case and yields the zero-initialized result,
exactly as in the source. -/
def exprEval (vars : List (String × Int)) : Expr → Except IErr Int
  | .binary op x y => do
      let l ← exprEval vars x
      let r ← exprEval vars y
      binOp op l r
  | .paren _ x _ => exprEval vars x
  | .var pos name =>
      match alGet? name vars with
      | Option.none => .error (.unknownVariable pos name)
      | Option.some v => .ok v
  | .num _ v => .ok v
  | .str _ _ => .ok 0
  | .punct _ _ => .ok 0

/-- Interpreter.print's argument loop: each non-semicolon argument performs
one write to the Mach.  An expression failure aborts the loop, keeping the
writes already made. -/
def execPrintArgs (st : IState) (lbl : Label) : List Expr → IState × Option IErr
  | [] => (st, none)
  | a :: rest =>
    match a with
    | .str _ v => execPrintArgs { st with out := st.out ++ [v] } lbl rest
    | .punct _ ty =>
        if ty = .COMMA then execPrintArgs { st with out := st.out ++ [" "] } lbl rest
        else if ty = .SEMICOLON then execPrintArgs st lbl rest
        else (st, some (.unknownPrintArg lbl))
    | e =>
        match exprEval st.vars e with
        | .error er => (st, some er)
        | .ok n => execPrintArgs { st with out := st.out ++ [toString n] } lbl rest

mutual
/-- Interpreter.stmt: execute one statement, returning the updated state and
the panic value if one was raised.  Mutations committed before a panic are
kept, as the Go pointer receiver keeps them. -/
def execStmt (st : IState) : Stmt → IState × Option IErr
  | .forStmt _ _ _ vn startE _ stopE =>
      match exprEval st.vars startE with
      | .error e => (st, some e)
      | .ok sv =>
        let st := { st with vars := alSet vn sv st.vars }
        match exprEval st.vars stopE with
        | .error e => (st, some e)
        | .ok ev => ({ st with fors := ⟨st.pc, vn, ev⟩ :: st.fors }, none)
  | .nextStmt lbl _ _ vn =>
      match st.fors with
      | [] => (st, some (.nonMatchingNext lbl))
      | f :: rest =>
        let vars1 :=
          if f.var = vn then alSet vn (wrap64 (alGetD vn 0 st.vars + 1)) st.vars
          else st.vars
        if alGetD vn 0 vars1 ≤ f.toV then
          ({ st with vars := vars1, pc := f.block }, none)
        else
          ({ st with vars := vars1, fors := rest }, none)
  | .ifStmt _ _ cond _ body els =>
      match exprEval st.vars cond with
      | .error e => (st, some e)
      | .ok c => if c ≠ 0 then execStmt st body else execElse st els
  | .gotoStmt lbl _ _ loc =>
      match alGet? loc st.locs with
      | Option.none => (st, some (.gotoNotExist lbl loc))
      | Option.some i => ({ st with pc := i }, none)
  | .gosubStmt lbl _ _ loc =>
      let st := { st with subs := st.pc :: st.subs }
      match alGet? loc st.locs with
      | Option.none => (st, some (.gosubNotExist lbl loc))
      | Option.some i => ({ st with pc := i }, none)
  | .returnStmt lbl _ =>
      match st.subs with
      | [] => (st, some (.nonMatchingReturn lbl))
      | a :: rest => ({ st with pc := a, subs := rest }, none)
  | .letStmt _ _ _ vn value =>
      match exprEval st.vars value with
      | .error e => (st, some e)
      | .ok v => ({ st with vars := alSet vn v st.vars }, none)
  | .endStmt _ _ => ({ st with halt := true }, none)
  | .peekStmt _ _ addr _ vn =>
      match exprEval st.vars addr with
      | .error e => (st, some e)
      | .ok a => ({ st with vars := alSet vn (alGetD a 0 st.mem) st.vars }, none)
  | .pokeStmt _ _ addr value =>
      match exprEval st.vars addr with
      | .error e => (st, some e)
      | .ok a =>
        match exprEval st.vars value with
        | .error e => (st, some e)
        | .ok v => ({ st with mem := alSet a v st.mem }, none)
  | .printStmt lbl _ args => execPrintArgs st lbl args

/-- The else branch of Interpreter.if_: run the attached ElseStmt's body if
present. -/
def execElse (st : IState) : ElseOpt → IState × Option IErr
  | .none => (st, none)
  | .some _ _ body => execStmt st body
end

/-- Interpreter.Step: halt when the counter has passed the end, otherwise
fetch the statement, advance the counter, then evaluate. -/
def step (st : IState) : IState × Option IErr :=
  let st := if st.lines.length ≤ st.pc then { st with halt := true } else st
  if st.halt then (st, none)
  else
    match st.lines[st.pc]? with
    | Option.none => (st, none)
    | Option.some s => execStmt { st with pc := st.pc + 1 } s

/-- Iterate `step`, discarding errors (used to observe intermediate states
in theorems about concrete runs). -/
def stepN : Nat → IState → IState
  | 0, st => st
  | n + 1, st => stepN n (step st).1

/-- Outcome of a batch run. -/
inductive RunRes where
  | parseFail (e : PErr)
  | evalFail (final : IState) (e : IErr)
  | halted (final : IState)
  | fuelOut (final : IState)

/-- The run-to-halt loop of interp.Run. -/
def runSteps : Nat → IState → RunRes
  | 0, st => if st.halt then .halted st else .fuelOut st
  | n + 1, st =>
    if st.halt then .halted st
    else
      match step st with
      | (st', some e) => .evalFail st' e
      | (st', none) => runSteps n st'

/-- The Label→index map built by interp.Run: ascending iteration, later
lines overwriting earlier ones with the same label. -/
def buildLocs (lines : List Stmt) : List (Int × Nat) :=
  lines.enum.foldl (fun m p => alSet p.2.line p.1 m) []

/-- interp.Run up to the step loop: lex and parse every line, stopping at
the first parse error, then record line locations and reset the
interpreter. -/
def loadSrc (fuel : Nat) (name src : String) : Except PErr IState := do
  let st0 ← mkParser fuel name src
  let lines ← parseAllLoop fuel st0 []
  .ok { emptyIState with lines := lines, locs := buildLocs lines }

/-- interp.Run: parse everything, then step until halt or the first
evaluation error. -/
def runSrc (fuel : Nat) (name src : String) : RunRes :=
  match loadSrc fuel name src with
  | .error e => .parseFail e
  | .ok st => runSteps fuel st

/-- interp.addLine (REPL): a statement whose Label already exists evicts the
old line from its position, the new statement is appended at the end, the
Label→index map is rebuilt from scratch and the counter parks on the new
line. -/
def addLine (p : IState) (s : Stmt) : IState :=
  let lines :=
    match alGet? s.line p.locs with
    | Option.none => p.lines
    | Option.some n => p.lines.eraseIdx n
  let lines := lines ++ [s]
  { p with lines := lines, locs := buildLocs lines, pc := lines.length - 1 }

/-! ## Observation helpers and concrete fixtures used by the theorems -/

/-- The output writes recorded by a finished or failed run. -/
def RunRes.outOf : RunRes → Option (List String)
  | .halted st => some st.out
  | .evalFail st _ => some st.out
  | _ => none

/-- The final program counter of a finished or failed run. -/
def RunRes.pcOf : RunRes → Option Nat
  | .halted st => some st.pc
  | .evalFail st _ => some st.pc
  | _ => none

/-- The evaluation error of a failed run. -/
def RunRes.errOf : RunRes → Option IErr
  | .evalFail _ e => some e
  | _ => none

/-- Whether the run halted normally (interp.Run returned nil). -/
def RunRes.isHalted : RunRes → Bool
  | .halted _ => true
  | _ => false

/-- The labels of the loaded program lines, in storage order. -/
def RunRes.lineNums : RunRes → Option (List Int)
  | .halted st => some (st.lines.map Stmt.line)
  | .evalFail st _ => some (st.lines.map Stmt.line)
  | _ => none

/-- The Label a descriptive evaluation error carries, if any: the
unbound-variable and unknown-operator errors carry a source Position instead,
and the divide-by-zero runtime failure carries nothing. -/
def IErr.labelOf : IErr → Option Label
  | .nonMatchingNext l => some l
  | .gotoNotExist l _ => some l
  | .gosubNotExist l _ => some l
  | .nonMatchingReturn l => some l
  | .unknownPrintArg l => some l
  | .unknownVariable _ _ => none
  | .unknownBinaryOp _ _ => none
  | .divideByZero => none

/-- Whether a statement is a FOR statement. -/
def isForB : Stmt → Bool
  | .forStmt _ _ _ _ _ _ _ => true
  | _ => false

/-- One REPL parse: a fresh tokenizer and parser over a single entered line,
yielding its statement (as Repl does before calling addLine). -/
def parseOne (fuel : Nat) (src : String) : Option Stmt :=
  match mkParser fuel "" src with
  | .error _ => none
  | .ok st =>
    match pLine fuel st with
    | .error _ => none
    | .ok (s, _) => some s

/-- The FOR/NEXT example program of the spec. -/
def c2src : String := "10 FOR I=1 TO 3\n20 PRINT I\n30 NEXT I\n40 END"

/-- A placeholder statement, used only as a getD default for fixtures whose
parses are proven to succeed. -/
def junkStmt : Stmt := .endStmt ⟨⟨"", 0, 0, 0⟩, 0⟩ Token.zeroTok

/-- REPL fixture: the entered line `10 PRINT "A"`. -/
def s10A : Stmt := (parseOne 100 "10 PRINT \"A\"").getD junkStmt

/-- REPL fixture: the entered line `20 PRINT "C"`. -/
def s20C : Stmt := (parseOne 100 "20 PRINT \"C\"").getD junkStmt

/-- REPL fixture: the re-entered line `10 PRINT "B"`. -/
def s10B : Stmt := (parseOne 100 "10 PRINT \"B\"").getD junkStmt

/-- REPL fixture: the stored program after entering lines 10 and 20. -/
def replSt2 : IState := addLine (addLine emptyIState s10A) s20C

/-- Literal REPL fixtures (hand-written statements) for instantiating the
general line-replacement theorem: lines 10 and 20 stored, line 10 re-entered. -/
def w6a : Stmt := .printStmt ⟨⟨"", 0, 1, 1⟩, 10⟩ Token.zeroTok [.str ⟨"", 9, 1, 1⟩ "A"]

def w6c : Stmt := .printStmt ⟨⟨"", 0, 1, 1⟩, 20⟩ Token.zeroTok [.str ⟨"", 9, 1, 1⟩ "C"]

def w6b : Stmt := .printStmt ⟨⟨"", 0, 1, 1⟩, 10⟩ Token.zeroTok [.str ⟨"", 9, 1, 1⟩ "B"]

def w6st : IState := addLine (addLine emptyIState w6a) w6c

/-- The leading String argument of a PRINT statement, to observe stored
line content. -/
def stmtStr? : Stmt → Option String
  | .printStmt _ _ (Expr.str _ v :: _) => some v
  | _ => none

/-- Spec-side rendering of one PRINT argument, following the claim's words:
strings verbatim, one space for a comma, nothing for a semicolon, the decimal
value of an expression argument when it evaluates. -/
def renderArgSpec (vars : List (String × Int)) : Expr → Option String
  | .str _ v => some v
  | .punct _ ty =>
      if ty = Tok.COMMA then some " "
      else if ty = Tok.SEMICOLON then some ""
      else none
  | e => (exprEval vars e).toOption.map toString

/-- Concatenation of rendered pieces (the claim's "no line terminator
appended anywhere": output is exactly the concatenation). -/
def strJoin : List String → String
  | [] => ""
  | s :: rest => s ++ strJoin rest

/-- Spec-side rendering of a whole PRINT argument list, in order; `none`
when some argument has no rendering. -/
def renderAll (vars : List (String × Int)) : List Expr → Option (List String)
  | [] => some []
  | a :: rest =>
      (renderArgSpec vars a).bind fun r =>
        (renderAll vars rest).map fun rs => r :: rs

/-! ## Helper lemmas -/

/-- Reading back a key just written into an association list. -/
theorem alGet_alSet {κ α : Type} [DecidableEq κ] (k : κ) (v : α) :
    ∀ l : List (κ × α), alGet? k (alSet k v l) = some v := by
  intro l
  induction l with
  | nil => simp [alSet, alGet?]
  | cons p rest ih =>
    by_cases h : p.1 = k
    · simp [alSet, alGet?, h]
    · simpa [alSet, alGet?, h] using ih

/-- Erasing the element at index `n` removes exactly its contribution to a
count. -/
theorem countP_eraseIdx {α : Type} (p : α → Bool) :
    ∀ (l : List α) (n : Nat) (a : α), l.get? n = some a →
      List.countP p (l.eraseIdx n) =
        List.countP p l - (if p a then 1 else 0) := by
  intro l
  induction l with
  | nil => intro n a h; cases h
  | cons x xs ih =>
    intro n a h
    cases n with
    | zero =>
      cases h
      simp [List.eraseIdx, List.countP_cons]
    | succ m =>
      have h' : xs.get? m = some a := h
      have hxs := ih m a h'
      have hle : (if p a then 1 else 0) ≤ List.countP p xs := by
        have hmem : a ∈ xs := List.get?_mem h'
        by_cases hpa : p a = true
        · simp only [hpa, if_true]
          exact List.countP_pos_iff.mpr ⟨a, hmem, hpa⟩
        · simp [hpa]
      simp only [List.eraseIdx, List.countP_cons, hxs]
      omega

/-! ## The claims -/

/-- C2: batch-running `10 FOR I=1 TO 3 / 20 PRINT I / 30 NEXT I / 40 END`
writes exactly the values 1, 2 and 3 in that order — one write per PRINT
execution — and then halts with no error, with the counter just past line 40
(the END statement at index 3, labelled 40). -/
theorem C2_for_loop_run :
    (runSrc 100 "" c2src).isHalted = true ∧
    (runSrc 100 "" c2src).outOf = some ["1", "2", "3"] ∧
    (runSrc 100 "" c2src).pcOf = some 4 ∧
    (runSrc 100 "" c2src).lineNums = some [10, 20, 30, 40] ∧
    (runSrc 100 "" c2src).errOf = none := by
  refine ⟨?_, ?_, ?_, ?_, ?_⟩ <;> rfl

/-- C5 counterexample: the fatal error for `10 PRINT A` is the
unbound-variable error built from the variable token's source Position,
whose line is the physical line 1 — it carries no Label at all, so it does
not identify line 10. -/
theorem C5_counterexample :
    (runSrc 100 "" "10 PRINT A").errOf =
      some (.unknownVariable ⟨"", 9, 1, 1⟩ "A") ∧
    IErr.labelOf (.unknownVariable ⟨"", 9, 1, 1⟩ "A") = none ∧
    Pos.line ⟨"", 9, 1, 1⟩ ≠ 10 := by
  refine ⟨?_, ?_, ?_⟩
  · rfl
  · rfl
  · decide

/-- C5 amended: running `10 PRINT A` with no prior assignment yields a fatal
Evaluation error identifying the variable name `A` and the variable's source
position — physical line 1, byte offset 9 — rather than the statement's
Label 10. -/
theorem C5_amended_unbound_var :
    (runSrc 100 "" "10 PRINT A").errOf =
      some (.unknownVariable ⟨"", 9, 1, 1⟩ "A") ∧
    Pos.line ⟨"", 9, 1, 1⟩ = 1 ∧ Pos.offset ⟨"", 9, 1, 1⟩ = 9 := by
  refine ⟨?_, ?_, ?_⟩ <;> rfl

/-- C9: a well-formed IF whose body statement is the last line of the input
fails to parse: after the body, the dangling-else lookahead unconditionally
requires a NUMBER token, and end of input is reported as `expected NUMBER,
got EOF` (at the EOF token's position). -/
theorem C9_if_body_at_eof :
    (do
      let st ← mkParser 100 "" "10 IF 1 THEN\n20 LET A=1"
      pLine 100 st) =
    (.error (.errAt ⟨"", 23, 2, 1⟩ (.expected .NUMBER .EOF)) :
      Except PErr (Stmt × PState)) := by
  rfl

/-- C1 counterexample: in the loaded FOR/NEXT program the FOR statement is
at index 0 (and nowhere else), yet the frame pushed by executing it stores
block index 1; after FOR, PRINT, NEXT the counter is 1 (the PRINT), not the
FOR's own index 0; and two iterations in there is still exactly one frame,
so no fresh frame is pushed per iteration and the FOR is never re-executed. -/
theorem C1_counterexample :
    ((loadSrc 100 "" c2src).toOption.map fun st =>
      (st.lines.map isForB,
       (stepN 1 st).fors.map ForFrame.block,
       (stepN 3 st).pc,
       (stepN 5 st).fors.length))
    = some ([true, false, false, false], [1], 1, 1) ∧ (1 : Nat) ≠ 0 := by
  refine ⟨?_, ?_⟩
  · rfl
  · decide

/-- C4 counterexample: GOSUB to the undefined Label 99 from a state with an
empty call stack fails — but the call stack has already been mutated: the
advanced return counter 5 was pushed before the lookup, so the failed
statement does not leave the call stack as it was. -/
theorem C4_counterexample :
    execStmt { emptyIState with pc := 5 }
        (.gosubStmt ⟨⟨"", 0, 1, 1⟩, 10⟩ Token.zeroTok ⟨"", 0, 1, 1⟩ 99) =
      ({ emptyIState with pc := 5, subs := [5] },
       some (.gosubNotExist ⟨⟨"", 0, 1, 1⟩, 10⟩ 99)) ∧
    ([5] : List Nat) ≠ [] := by
  exact ⟨by rfl, by decide⟩

/-- C6 counterexample: with lines 10 and 20 stored, re-entering line 10
leaves the stored order [20, 10]: the new statement was appended at the end
(index 1), not put at the replaced line's position (index 0). -/
theorem C6_counterexample :
    (addLine replSt2 s10B).lines.map Stmt.line = [20, 10] ∧
    (addLine replSt2 s10B).lines.map stmtStr? = [some "C", some "B"] ∧
    replSt2.lines.map Stmt.line = [10, 20] ∧
    (20 : Int) ≠ 10 := by
  refine ⟨?_, ?_, ?_, ?_⟩
  · rfl
  · rfl
  · rfl
  · decide

/-- C3 core: for every fuel and every parser state whose current token is
`(`, the factor/term/expr recursion returns out-of-fuel. -/
theorem pexprF_lparen_oof :
    ∀ (n : Nat) (st : PState), st.tok.type = Tok.LPAREN →
      pexprF n .factor st = .error .oof ∧
      pexprF n .term st = .error .oof ∧
      pexprF n .expr st = .error .oof := by
  intro n
  induction n with
  | zero => intro st _; exact ⟨rfl, rfl, rfl⟩
  | succ m ih =>
    intro st h
    have hf : pexprF (m + 1) .factor st = .error .oof := by
      simp only [pexprF, h, (ih st h).2.2]
      rfl
    have ht : pexprF (m + 1) .term st = .error .oof := by
      simp only [pexprF, (ih st h).1]
      rfl
    have he : pexprF (m + 1) .expr st = .error .oof := by
      simp only [pexprF, (ih st h).2.1]
      rfl
    exact ⟨hf, ht, he⟩

/-- C3: the source's factor never consumes the `(` token before recursing
into expr, so for every fuel the factor/term/expr recursion on a `(` token
exhausts it — the parse of a parenthesized factor never completes — and the
whole batch pipeline on `10 LET A=(1)` accordingly burns any concrete fuel
instead of producing a statement. -/
theorem C3_paren_factor_diverges :
    (∀ (n : Nat) (st : PState), st.tok.type = Tok.LPAREN →
        pexprF n .factor st = .error .oof ∧
        pexprF n .term st = .error .oof ∧
        pexprF n .expr st = .error .oof) ∧
    runSrc 300 "" "10 LET A=(1)" = .parseFail .oof :=
  ⟨pexprF_lparen_oof, by set_option maxRecDepth 4000 in rfl⟩

/-- Witness for C3: the divergence theorem applied at fuel 5 to a concrete
parser state sitting on a `(` token. -/
theorem C3_paren_factor_diverges_witness :
    pexprF 5 .factor
      { toks := [], look := [], tok := ⟨⟨"", 8, 1, 1⟩, .LPAREN, "("⟩,
        label := ⟨⟨"", 0, 1, 1⟩, 10⟩, letTok := Option.none } = .error .oof :=
  (C3_paren_factor_diverges.1 5
    { toks := [], look := [], tok := ⟨⟨"", 8, 1, 1⟩, .LPAREN, "("⟩,
      label := ⟨⟨"", 0, 1, 1⟩, 10⟩, letTok := Option.none } rfl).1

/-- C1 amended: a FOR statement fetched at index i executes with the counter
already advanced to i+1, and the frame it pushes stores that advanced
counter — the index immediately after the FOR, not the FOR's own index.  A
matching NEXT whose post-increment value is within the bound jumps back to
that stored index, so iterations resume at the statement following the FOR:
the FOR itself is executed once, the loop variable is bound to start once,
and a single frame serves the whole loop. -/
theorem C1_amended_for_next :
    (∀ (st : IState) (s : Stmt), st.halt = false → st.lines[st.pc]? = some s →
        step st = execStmt { st with pc := st.pc + 1 } s) ∧
    (∀ (st : IState) (lbl : Label) (ft : Token) (vp : Pos) (vn : String)
        (startE : Expr) (toTok : Token) (stopE : Expr) (sv ev : Int),
        exprEval st.vars startE = .ok sv →
        exprEval (alSet vn sv st.vars) stopE = .ok ev →
        execStmt st (.forStmt lbl ft vp vn startE toTok stopE) =
          ({ st with vars := alSet vn sv st.vars,
                     fors := ⟨st.pc, vn, ev⟩ :: st.fors }, none)) ∧
    (∀ (st : IState) (lbl : Label) (nt : Token) (vp : Pos) (vn : String)
        (f : ForFrame) (rest : List ForFrame),
        st.fors = f :: rest → f.var = vn →
        wrap64 (alGetD vn 0 st.vars + 1) ≤ f.toV →
        execStmt st (.nextStmt lbl nt vp vn) =
          ({ st with vars := alSet vn (wrap64 (alGetD vn 0 st.vars + 1)) st.vars,
                     pc := f.block }, none)) := by
  refine ⟨?_, ?_, ?_⟩
  · intro st s hh hs
    have hlt : ¬ st.lines.length ≤ st.pc := by
      intro hle
      rw [List.getElem?_eq_none hle] at hs
      cases hs
    simp [step, hlt, hh, hs]
  · intro st lbl ft vp vn startE toTok stopE sv ev h1 h2
    simp [execStmt, h1, h2]
  · intro st lbl nt vp vn f rest hf hv hle
    subst hv
    simp only [execStmt, hf, if_pos rfl]
    rw [if_pos]
    · rfl
    · simpa [alGetD, alGet_alSet] using hle

/-- Witness for C1's amended theorem: step fetching an END at index 0
executes with counter 1; a FOR executed with counter 1 pushes frame block 1,
binds I to 1 and bounds the loop at 3; the matching NEXT increments I to 2
and jumps back to block 1. -/
theorem C1_amended_for_next_witness :
    (step { emptyIState with lines := [.endStmt ⟨⟨"", 0, 1, 1⟩, 40⟩ Token.zeroTok] } =
      execStmt { emptyIState with
                   lines := [.endStmt ⟨⟨"", 0, 1, 1⟩, 40⟩ Token.zeroTok],
                   pc := 1 } (.endStmt ⟨⟨"", 0, 1, 1⟩, 40⟩ Token.zeroTok)) ∧
    (execStmt { emptyIState with pc := 1 }
        (.forStmt ⟨⟨"", 0, 1, 1⟩, 10⟩ Token.zeroTok ⟨"", 3, 1, 1⟩ "I"
          (.num ⟨"", 5, 1, 1⟩ 1) Token.zeroTok (.num ⟨"", 10, 1, 1⟩ 3)) =
      ({ emptyIState with pc := 1, vars := alSet "I" 1 [],
                          fors := [⟨1, "I", 3⟩] }, none)) ∧
    (execStmt { emptyIState with pc := 3, vars := [("I", 1)], fors := [⟨1, "I", 3⟩] }
        (.nextStmt ⟨⟨"", 0, 3, 1⟩, 30⟩ Token.zeroTok ⟨"", 8, 3, 1⟩ "I") =
      ({ emptyIState with pc := 1,
                          vars := alSet "I" (wrap64 (alGetD "I" 0 [("I", 1)] + 1)) [("I", 1)],
                          fors := [⟨1, "I", 3⟩] }, none)) := by
  refine ⟨?_, ?_, ?_⟩
  · exact C1_amended_for_next.1 _ _ rfl rfl
  · exact C1_amended_for_next.2.1 _ _ _ _ "I" _ _ _ 1 3 rfl rfl
  · exact C1_amended_for_next.2.2 _ _ _ _ "I" ⟨1, "I", 3⟩ [] rfl rfl (by decide)

/-- C4 amended: a failing LET performs no bind, and a fatal GOTO, RETURN,
NEXT or PEEK leaves the variable bindings, the call stack and the loop stack
exactly as they were; but GOSUB to an undefined Label pushes the advanced
return counter onto the call stack before failing, and a FOR whose end-bound
evaluation fails has already bound the loop variable to its start value. -/
theorem C4_amended_error_mutation :
    (∀ (st : IState) (lbl : Label) (lt : Option Token) (vp : Pos) (vn : String)
        (value : Expr) (e : IErr),
        exprEval st.vars value = .error e →
        execStmt st (.letStmt lbl lt vp vn value) = (st, some e)) ∧
    (∀ (st : IState) (lbl : Label) (gt : Token) (lp : Pos) (loc : Int),
        alGet? loc st.locs = none →
        execStmt st (.gotoStmt lbl gt lp loc) = (st, some (.gotoNotExist lbl loc))) ∧
    (∀ (st : IState) (lbl : Label) (rt : Token),
        st.subs = [] →
        execStmt st (.returnStmt lbl rt) = (st, some (.nonMatchingReturn lbl))) ∧
    (∀ (st : IState) (lbl : Label) (nt : Token) (vp : Pos) (vn : String),
        st.fors = [] →
        execStmt st (.nextStmt lbl nt vp vn) = (st, some (.nonMatchingNext lbl))) ∧
    (∀ (st : IState) (lbl : Label) (pt : Token) (addr : Expr) (vp : Pos)
        (vn : String) (e : IErr),
        exprEval st.vars addr = .error e →
        execStmt st (.peekStmt lbl pt addr vp vn) = (st, some e)) ∧
    (∀ (st : IState) (lbl : Label) (gt : Token) (lp : Pos) (loc : Int),
        alGet? loc st.locs = none →
        execStmt st (.gosubStmt lbl gt lp loc) =
          ({ st with subs := st.pc :: st.subs }, some (.gosubNotExist lbl loc))) ∧
    (∀ (st : IState) (lbl : Label) (ft : Token) (vp : Pos) (vn : String)
        (startE : Expr) (toTok : Token) (stopE : Expr) (sv : Int) (e : IErr),
        exprEval st.vars startE = .ok sv →
        exprEval (alSet vn sv st.vars) stopE = .error e →
        execStmt st (.forStmt lbl ft vp vn startE toTok stopE) =
          ({ st with vars := alSet vn sv st.vars }, some e)) := by
  refine ⟨?_, ?_, ?_, ?_, ?_, ?_, ?_⟩
  · intro st lbl lt vp vn value e h
    simp [execStmt, h]
  · intro st lbl gt lp loc h
    simp [execStmt, h]
  · intro st lbl rt h
    simp [execStmt, h]
  · intro st lbl nt vp vn h
    simp [execStmt, h]
  · intro st lbl pt addr vp vn e h
    simp [execStmt, h]
  · intro st lbl gt lp loc h
    simp [execStmt, h]
  · intro st lbl ft vp vn startE toTok stopE sv e h1 h2
    simp [execStmt, h1, h2]

/-- Witness for C4's amended theorem: each conjunct applied at a concrete
state — a LET with an unbound variable on the right binds nothing; GOTO,
RETURN and NEXT fail without mutation; PEEK with a failing address binds
nothing; GOSUB 99 from counter 5 pushes 5 before failing; FOR with a failing
end bound has bound its loop variable. -/
theorem C4_amended_error_mutation_witness :
    (execStmt emptyIState
        (.letStmt ⟨⟨"", 0, 1, 1⟩, 10⟩ Option.none ⟨"", 7, 1, 1⟩ "X" (.var ⟨"", 9, 1, 1⟩ "Z")) =
      (emptyIState, some (.unknownVariable ⟨"", 9, 1, 1⟩ "Z"))) ∧
    (execStmt emptyIState (.gotoStmt ⟨⟨"", 0, 1, 1⟩, 10⟩ Token.zeroTok ⟨"", 8, 1, 1⟩ 99) =
      (emptyIState, some (.gotoNotExist ⟨⟨"", 0, 1, 1⟩, 10⟩ 99))) ∧
    (execStmt emptyIState (.returnStmt ⟨⟨"", 0, 1, 1⟩, 10⟩ Token.zeroTok) =
      (emptyIState, some (.nonMatchingReturn ⟨⟨"", 0, 1, 1⟩, 10⟩))) ∧
    (execStmt emptyIState (.nextStmt ⟨⟨"", 0, 1, 1⟩, 10⟩ Token.zeroTok ⟨"", 8, 1, 1⟩ "I") =
      (emptyIState, some (.nonMatchingNext ⟨⟨"", 0, 1, 1⟩, 10⟩))) ∧
    (execStmt emptyIState
        (.peekStmt ⟨⟨"", 0, 1, 1⟩, 10⟩ Token.zeroTok (.var ⟨"", 8, 1, 1⟩ "Z") ⟨"", 11, 1, 1⟩ "X") =
      (emptyIState, some (.unknownVariable ⟨"", 8, 1, 1⟩ "Z"))) ∧
    (execStmt { emptyIState with pc := 5 }
        (.gosubStmt ⟨⟨"", 0, 1, 1⟩, 10⟩ Token.zeroTok ⟨"", 9, 1, 1⟩ 99) =
      ({ emptyIState with pc := 5, subs := 5 :: emptyIState.subs },
       some (.gosubNotExist ⟨⟨"", 0, 1, 1⟩, 10⟩ 99))) ∧
    (execStmt emptyIState
        (.forStmt ⟨⟨"", 0, 1, 1⟩, 10⟩ Token.zeroTok ⟨"", 7, 1, 1⟩ "I"
          (.num ⟨"", 9, 1, 1⟩ 1) Token.zeroTok (.var ⟨"", 14, 1, 1⟩ "Z")) =
      ({ emptyIState with vars := alSet "I" 1 emptyIState.vars },
       some (.unknownVariable ⟨"", 14, 1, 1⟩ "Z"))) := by
  refine ⟨?_, ?_, ?_, ?_, ?_, ?_, ?_⟩
  · exact C4_amended_error_mutation.1 _ _ _ _ "X" _ _ rfl
  · exact C4_amended_error_mutation.2.1 _ _ _ _ 99 rfl
  · exact C4_amended_error_mutation.2.2.1 _ _ _ rfl
  · exact C4_amended_error_mutation.2.2.2.1 _ _ _ _ "I" rfl
  · exact C4_amended_error_mutation.2.2.2.2.1 _ _ _ _ _ "X" _ rfl
  · exact C4_amended_error_mutation.2.2.2.2.2.1 _ _ _ _ 99 rfl
  · exact C4_amended_error_mutation.2.2.2.2.2.2 _ _ _ _ "I" _ _ _ 1 _ rfl rfl

/-- C10: NEXT with a non-empty loop stack whose top frame names a different
variable increments nothing and raises nothing; the jump-or-pop decision
compares the NEXT statement's own variable's current mapping — zero when
unbound, with no unbound-variable error — against the top frame's bound. -/
theorem C10_next_var_mismatch :
    ∀ (st : IState) (lbl : Label) (nt : Token) (vp : Pos) (vn : String)
      (f : ForFrame) (rest : List ForFrame),
      st.fors = f :: rest → f.var ≠ vn →
      execStmt st (.nextStmt lbl nt vp vn) =
        (if alGetD vn 0 st.vars ≤ f.toV then { st with pc := f.block }
         else { st with fors := rest }, none) := by
  intro st lbl nt vp vn f rest hf hne
  simp only [execStmt, hf, if_neg hne]
  split <;> rfl

/-- Witness for C10: a NEXT on variable J (unbound, so its mapping defaults
to 0) over a top frame for I bounded by 3: no increment, no error, and the
jump is taken because 0 ≤ 3. -/
theorem C10_next_var_mismatch_witness :
    execStmt { emptyIState with fors := [⟨7, "I", 3⟩] }
        (.nextStmt ⟨⟨"", 0, 1, 1⟩, 30⟩ Token.zeroTok ⟨"", 8, 1, 1⟩ "J") =
      (if alGetD "J" 0 emptyIState.vars ≤ (3 : Int)
       then { emptyIState with fors := [⟨7, "I", 3⟩], pc := 7 }
       else { emptyIState with fors := [] }, none) :=
  C10_next_var_mismatch { emptyIState with fors := [⟨7, "I", 3⟩] }
    ⟨⟨"", 0, 1, 1⟩, 30⟩ Token.zeroTok ⟨"", 8, 1, 1⟩ "J" ⟨7, "I", 3⟩ [] rfl
    (by decide)

/-- C8: a division or modulo whose right operand evaluates to zero passes
through no explicit guard: the evaluator produces the host runtime's
divide-by-zero failure — not one of the interpreter's descriptive errors and
not an ordinary result value. -/
theorem C8_div_mod_zero_unguarded :
    ∀ (vars : List (String × Int)) (op : Token) (x y : Expr) (l : Int),
      op.type = Tok.SLASH ∨ op.type = Tok.MOD →
      exprEval vars x = .ok l → exprEval vars y = .ok 0 →
      exprEval vars (.binary op x y) = .error .divideByZero := by
  intro vars op x y l hop hx hy
  rcases hop with h | h <;>
    simp only [exprEval, hx, hy, binOp, h] <;> rfl

/-- Witness for C8: `7 / 0` and `7 % 0` both evaluate to the host
divide-by-zero failure. -/
theorem C8_div_mod_zero_unguarded_witness :
    exprEval [] (.binary ⟨⟨"", 1, 1, 1⟩, .SLASH, "/"⟩ (.num ⟨"", 0, 1, 1⟩ 7) (.num ⟨"", 2, 1, 1⟩ 0)) =
      .error .divideByZero ∧
    exprEval [] (.binary ⟨⟨"", 1, 1, 1⟩, .MOD, "%"⟩ (.num ⟨"", 0, 1, 1⟩ 7) (.num ⟨"", 2, 1, 1⟩ 0)) =
      .error .divideByZero :=
  ⟨C8_div_mod_zero_unguarded [] _ _ _ 7 (Or.inl rfl) rfl rfl,
   C8_div_mod_zero_unguarded [] _ _ _ 7 (Or.inr rfl) rfl rfl⟩

/-- C6 amended: entering a statement whose Label matches a stored line evicts
the old statement from its position and appends the new statement at the END
of the stored lines (not at the replaced line's position); exactly one stored
statement for that Label remains — the newly entered one, now the last line —
and the Label-to-index map is rebuilt from scratch over the new line list. -/
theorem C6_replace_appends :
    ∀ (st : IState) (s : Stmt) (n : Nat) (old : Stmt),
      alGet? (Stmt.line s) st.locs = some n →
      st.lines.get? n = some old →
      Stmt.line old = Stmt.line s →
      st.lines.countP (fun t => Stmt.line t == Stmt.line s) = 1 →
      (addLine st s).lines = st.lines.eraseIdx n ++ [s] ∧
      (addLine st s).lines.countP (fun t => Stmt.line t == Stmt.line s) = 1 ∧
      (addLine st s).lines.getLast? = some s ∧
      (addLine st s).locs = buildLocs (st.lines.eraseIdx n ++ [s]) ∧
      (addLine st s).pc = (st.lines.eraseIdx n ++ [s]).length - 1 := by
  intro st s n old h1 h2 h3 h4
  have hlines : (addLine st s).lines = st.lines.eraseIdx n ++ [s] := by
    simp [addLine, h1]
  refine ⟨hlines, ?_, ?_, ?_, ?_⟩
  · rw [hlines, List.countP_append]
    have h0 : (st.lines.eraseIdx n).countP (fun t => Stmt.line t == Stmt.line s) = 0 := by
      rw [countP_eraseIdx _ st.lines n old h2, h4]
      simp [h3]
    rw [h0]
    simp
  · rw [hlines]
    exact List.getLast?_concat _
  · simp [addLine, h1]
  · simp [addLine, h1]

/-- Witness for C6's amended theorem: with literal lines 10 and 20 stored,
entering a new line 10 erases the old line 10 from index 0, appends the new
statement last, leaves one statement for Label 10 and rebuilds the map. -/
theorem C6_replace_appends_witness :
    (alGet? (Stmt.line w6b) w6st.locs = some 0 ∧
     w6st.lines.countP (fun t => Stmt.line t == Stmt.line w6b) = 1) ∧
    (addLine w6st w6b).lines = w6st.lines.eraseIdx 0 ++ [w6b] ∧
    (addLine w6st w6b).lines.countP (fun t => Stmt.line t == Stmt.line w6b) = 1 ∧
    (addLine w6st w6b).lines.getLast? = some w6b ∧
    (addLine w6st w6b).locs = buildLocs (w6st.lines.eraseIdx 0 ++ [w6b]) ∧
    (addLine w6st w6b).pc = (w6st.lines.eraseIdx 0 ++ [w6b]).length - 1 := by
  have h := C6_replace_appends w6st w6b 0 w6a (by rfl) (by rfl) (by rfl) (by rfl)
  exact ⟨⟨by rfl, by rfl⟩, h.1, h.2.1, h.2.2.1, h.2.2.2.1, h.2.2.2.2⟩

/-- Left identity of string append, in the form the print-loop proof needs. -/
theorem strEmptyAppend (s : String) : "" ++ s = s := by
  cases s
  rfl

/-- C7 core: when every argument renders under the spec-side description,
the print loop succeeds and the pieces it writes concatenate to exactly the
concatenation of the spec renderings, in argument order. -/
theorem execPrintArgs_renders :
    ∀ (args : List Expr) (st : IState) (lbl : Label) (rs : List String),
      renderAll st.vars args = some rs →
      ∃ pieces,
        execPrintArgs st lbl args = ({ st with out := st.out ++ pieces }, none) ∧
        strJoin pieces = strJoin rs := by
  intro args
  induction args with
  | nil =>
    intro st lbl rs h
    have h' : ([] : List String) = rs := Option.some.inj h
    subst h'
    exact ⟨[], by simp [execPrintArgs], rfl⟩
  | cons a rest ih =>
    intro st lbl rs h
    rw [renderAll] at h
    cases hra : renderArgSpec st.vars a with
    | none => rw [hra] at h; cases h
    | some r =>
      cases hrest : renderAll st.vars rest with
      | none => rw [hra, hrest] at h; cases h
      | some rs' =>
        rw [hra, hrest] at h
        have hrs : rs = r :: rs' := (Option.some.inj h).symm
        subst hrs
        cases a with
        | str pos v =>
          have hr : r = v := by simpa [renderArgSpec] using hra.symm
          subst hr
          obtain ⟨pieces, hexec, hjoin⟩ :=
            ih { st with out := st.out ++ [r] } lbl rs' hrest
          refine ⟨r :: pieces, ?_, ?_⟩
          · simpa [execPrintArgs, List.append_assoc] using hexec
          · simp [strJoin, hjoin]
        | punct pos ty =>
          by_cases hc : ty = Tok.COMMA
          · subst hc
            have hr : r = " " := by simpa [renderArgSpec] using hra.symm
            obtain ⟨pieces, hexec, hjoin⟩ :=
              ih { st with out := st.out ++ [" "] } lbl rs' hrest
            refine ⟨" " :: pieces, ?_, ?_⟩
            · simpa [execPrintArgs, List.append_assoc] using hexec
            · simp [strJoin, hjoin, hr]
          · by_cases hs : ty = Tok.SEMICOLON
            · subst hs
              have hr : r = "" := by simpa [renderArgSpec] using hra.symm
              obtain ⟨pieces, hexec, hjoin⟩ := ih st lbl rs' hrest
              refine ⟨pieces, ?_, ?_⟩
              · simpa [execPrintArgs] using hexec
              · rw [hjoin, hr, strJoin, strEmptyAppend]
            · simp [renderArgSpec, hc, hs] at hra
        | num pos v =>
          cases hev : exprEval st.vars (.num pos v) with
          | error e => simp [renderArgSpec, hev, Except.toOption] at hra
          | ok nv =>
            have hr : r = toString nv := by
              simp [renderArgSpec, hev, Except.toOption] at hra
              exact hra.symm
            subst hr
            obtain ⟨pieces, hexec, hjoin⟩ :=
              ih { st with out := st.out ++ [toString nv] } lbl rs' hrest
            refine ⟨toString nv :: pieces, ?_, ?_⟩
            · simpa [execPrintArgs, hev, List.append_assoc] using hexec
            · simp [strJoin, hjoin]
        | var pos nm =>
          cases hev : exprEval st.vars (.var pos nm) with
          | error e => simp [renderArgSpec, hev, Except.toOption] at hra
          | ok nv =>
            have hr : r = toString nv := by
              simp [renderArgSpec, hev, Except.toOption] at hra
              exact hra.symm
            subst hr
            obtain ⟨pieces, hexec, hjoin⟩ :=
              ih { st with out := st.out ++ [toString nv] } lbl rs' hrest
            refine ⟨toString nv :: pieces, ?_, ?_⟩
            · simpa [execPrintArgs, hev, List.append_assoc] using hexec
            · simp [strJoin, hjoin]
        | binary op x y =>
          cases hev : exprEval st.vars (.binary op x y) with
          | error e => simp [renderArgSpec, hev, Except.toOption] at hra
          | ok nv =>
            have hr : r = toString nv := by
              simp [renderArgSpec, hev, Except.toOption] at hra
              exact hra.symm
            subst hr
            obtain ⟨pieces, hexec, hjoin⟩ :=
              ih { st with out := st.out ++ [toString nv] } lbl rs' hrest
            refine ⟨toString nv :: pieces, ?_, ?_⟩
            · simpa [execPrintArgs, hev, List.append_assoc] using hexec
            · simp [strJoin, hjoin]
        | paren lp x rp =>
          cases hev : exprEval st.vars (.paren lp x rp) with
          | error e => simp [renderArgSpec, hev, Except.toOption] at hra
          | ok nv =>
            have hr : r = toString nv := by
              simp [renderArgSpec, hev, Except.toOption] at hra
              exact hra.symm
            subst hr
            obtain ⟨pieces, hexec, hjoin⟩ :=
              ih { st with out := st.out ++ [toString nv] } lbl rs' hrest
            refine ⟨toString nv :: pieces, ?_, ?_⟩
            · simpa [execPrintArgs, hev, List.append_assoc] using hexec
            · simp [strJoin, hjoin]

/-- C7: executing a PRINT statement evaluates its arguments in order and
appends to the output exactly one write per non-semicolon argument — string
text verbatim, decimal values for expression arguments, one space per comma,
nothing for a semicolon — and the total output is the plain concatenation of
those renderings, with no line terminator appended anywhere. -/
theorem C7_print_renders :
    ∀ (st : IState) (lbl : Label) (ptok : Token) (args : List Expr) (rs : List String),
      renderAll st.vars args = some rs →
      ∃ pieces,
        execStmt st (.printStmt lbl ptok args) = ({ st with out := st.out ++ pieces }, none) ∧
        strJoin pieces = strJoin rs := by
  intro st lbl ptok args rs h
  have := execPrintArgs_renders args st lbl rs h
  simpa [execStmt] using this

/-- Witness for C7: a PRINT with one argument of every kind — a string, a
number, a comma, a semicolon, a bound variable, a parenthesized expression
and a binary expression — writes their renderings in order. -/
theorem C7_print_renders_witness :
    (renderAll ([("X", 9)] : List (String × Int))
      [Expr.str ⟨"", 0, 1, 1⟩ "hi", Expr.num ⟨"", 0, 1, 1⟩ 5,
      Expr.punct ⟨"", 0, 1, 1⟩ .COMMA, Expr.punct ⟨"", 0, 1, 1⟩ .SEMICOLON,
      Expr.var ⟨"", 0, 1, 1⟩ "X",
      Expr.paren Token.zeroTok (Expr.num ⟨"", 0, 1, 1⟩ 2) Token.zeroTok,
      Expr.binary ⟨⟨"", 0, 1, 1⟩, .PLUS, "+"⟩ (Expr.num ⟨"", 0, 1, 1⟩ 1)
        (Expr.num ⟨"", 0, 1, 1⟩ 2)] =
      some ["hi", "5", " ", "", "9", "2", "3"]) ∧
    ∃ pieces,
      execStmt { emptyIState with vars := [("X", 9)] }
          (.printStmt ⟨⟨"", 0, 1, 1⟩, 10⟩ Token.zeroTok
            [Expr.str ⟨"", 0, 1, 1⟩ "hi", Expr.num ⟨"", 0, 1, 1⟩ 5,
             Expr.punct ⟨"", 0, 1, 1⟩ .COMMA, Expr.punct ⟨"", 0, 1, 1⟩ .SEMICOLON,
             Expr.var ⟨"", 0, 1, 1⟩ "X",
             Expr.paren Token.zeroTok (Expr.num ⟨"", 0, 1, 1⟩ 2) Token.zeroTok,
             Expr.binary ⟨⟨"", 0, 1, 1⟩, .PLUS, "+"⟩ (Expr.num ⟨"", 0, 1, 1⟩ 1)
               (Expr.num ⟨"", 0, 1, 1⟩ 2)]) =
        ({ emptyIState with vars := [("X", 9)],
                            out := emptyIState.out ++ pieces }, none) ∧
      strJoin pieces = strJoin ["hi", "5", " ", "", "9", "2", "3"] := by
  refine ⟨by rfl, ?_⟩
  exact C7_print_renders { emptyIState with vars := [("X", 9)] }
    ⟨⟨"", 0, 1, 1⟩, 10⟩ Token.zeroTok _ ["hi", "5", " ", "", "9", "2", "3"] (by rfl)
